import Mathlib

/-!
Verification of the DroneCAN-Batch-Updater core against its specification.

The Python sources under `src/` are shallowly embedded: byte strings become
`List Nat`, Python `dict`s become insertion-ordered association lists, and
stateful handlers become explicit state-passing functions.  Machine integers
are modelled as `Nat`/`Int` (the Python code itself uses unbounded integers).
-/

namespace DroneCANBatch

/-! ### Firmware bundle loader (`src/uploader.py`, class `firmware`) -/

/-- Python 3 `bytes(n)` constructs `n` zero bytes. -/
def pyBytes (n : Nat) : List Nat := List.replicate n 0

/-- The image padding loop from `firmware.__init__`
(`while (len(self.image) % 4) != 0: self.image += bytes(0xFF)`).
Each iteration appends `bytes(0xFF)`, i.e. 255 zero bytes. -/
def padImage (img : List Nat) : List Nat :=
  if img.length % 4 = 0 then img else padImage (img ++ pyBytes 0xFF)
termination_by img.length % 4
decreasing_by
  simp only [List.length_append, pyBytes, List.length_replicate]
  omega

/-- C1: evidence of the padding bug.  On a decompressed image of length 1 the
loop appends `bytes(0xFF)` — 255 zero bytes — so the result is 4-byte aligned
but none of the appended padding bytes equals `0xFF`. -/
theorem padImage_appends_zero_bytes :
    padImage [0xAB] = 0xAB :: List.replicate 255 0 ∧
    (padImage [0xAB]).length % 4 = 0 ∧
    ∀ b ∈ (padImage [0xAB]).drop 1, b ≠ 0xFF := by
  have h1 : padImage [0xAB] = 0xAB :: List.replicate 255 0 := by
    rw [padImage.eq_def, if_neg (by decide)]
    rw [show [(0xAB : Nat)] ++ pyBytes 0xFF = 0xAB :: List.replicate 255 0 from by
      simp only [pyBytes, List.singleton_append]]
    rw [padImage.eq_def, if_pos (by
      simp only [List.length_cons, List.length_replicate])]
  refine ⟨h1, ?_, ?_⟩
  · rw [h1]; simp only [List.length_cons, List.length_replicate]
  · rw [h1]
    intro b hb
    simp only [List.drop_succ_cons, List.drop_zero] at hb
    have hb0 : b = 0 := List.eq_of_mem_replicate hb
    omega

/-! ### Bootloader protocol client: PROG_MULTI chunking (`uploader.__program`) -/

/-- Constant `uploader.PROG_MULTI_MAX`: maximum PROG_MULTI payload, multiple of 4. -/
def PROG_MULTI_MAX : Nat := 252

/-- Function `uploader.__split_len(seq, length)`:
`[seq[i : i + length] for i in range(0, len(seq), length)]`.
(Python raises `ValueError` for `length == 0`; that argument never occurs,
and the embedding returns `[]` there.) -/
def split_len (seq : List Nat) (n : Nat) : List (List Nat) :=
  if seq = [] ∨ n = 0 then []
  else seq.take n :: split_len (seq.drop n) n
termination_by seq.length
decreasing_by
  rename_i h
  push_neg at h
  simp only [List.length_drop]
  have : seq.length ≠ 0 := fun hz => h.1 (List.eq_nil_of_length_eq_zero hz)
  omega

/-- In `uploader.__program`, the sequence of PROG_MULTI payloads is
`self.__split_len(fw.image, uploader.PROG_MULTI_MAX)`. -/
def program_payloads (image : List Nat) : List (List Nat) :=
  split_len image PROG_MULTI_MAX

theorem split_len_spec (k : Nat) :
    ∀ (seq : List Nat) (n : Nat), seq.length ≤ k → 0 < n →
      (split_len seq n).flatten = seq ∧
      ∀ c ∈ split_len seq n, c.length ≤ n ∧
        (n % 4 = 0 → seq.length % 4 = 0 → c.length % 4 = 0) := by
  induction k with
  | zero =>
    intro seq n hlen hn
    have hseq : seq = [] := List.eq_nil_of_length_eq_zero (Nat.le_zero.mp hlen)
    subst hseq
    rw [split_len.eq_def]
    simp
  | succ k ih =>
    intro seq n hlen hn
    by_cases hseq : seq = []
    · subst hseq
      rw [split_len.eq_def]
      simp
    · have hpos : 0 < seq.length := List.length_pos.mpr hseq
      have hcond : ¬(seq = [] ∨ n = 0) := by
        push_neg
        exact ⟨hseq, by omega⟩
      rw [split_len.eq_def, if_neg hcond]
      obtain ⟨ihj, ihc⟩ := ih (seq.drop n) n (by simp only [List.length_drop]; omega) hn
      constructor
      · rw [List.flatten_cons, ihj, List.take_append_drop]
      · intro c hc
        rcases List.mem_cons.mp hc with rfl | hc
        · constructor
          · exact List.length_take_le n seq
          · intro h4n h4s
            rw [List.length_take]
            omega
        · obtain ⟨hle, hmod⟩ := ihc c hc
          refine ⟨hle, fun h4n h4s => hmod h4n ?_⟩
          rw [List.length_drop]
          omega

/-- C3: for a 4-byte-aligned image, the main-flash programming step splits the
image into consecutive chunks whose concatenation is the whole image; every
chunk is at most 252 bytes, a multiple of 4 bytes, and in particular strictly
shorter than 253 bytes. -/
theorem prog_multi_chunking (image : List Nat) (h4 : image.length % 4 = 0) :
    (program_payloads image).flatten = image ∧
    ∀ c ∈ program_payloads image,
      c.length ≤ PROG_MULTI_MAX ∧ c.length % 4 = 0 ∧ c.length < 253 := by
  obtain ⟨hj, hc⟩ :=
    split_len_spec image.length image PROG_MULTI_MAX le_rfl (by norm_num [PROG_MULTI_MAX])
  refine ⟨hj, fun c hcmem => ?_⟩
  obtain ⟨hle, hmod⟩ := hc c hcmem
  have h252 : PROG_MULTI_MAX = 252 := rfl
  exact ⟨hle, hmod (by norm_num [PROG_MULTI_MAX]) h4, by omega⟩

/-- C3 witness: the chunking theorem applied to the concrete image
`[1, 2, 3, 4]`. -/
theorem prog_multi_chunking_witness :
    ([1, 2, 3, 4] : List Nat).length % 4 = 0 ∧
    ((program_payloads [1, 2, 3, 4]).flatten = [1, 2, 3, 4] ∧
      ∀ c ∈ program_payloads [1, 2, 3, 4],
        c.length ≤ PROG_MULTI_MAX ∧ c.length % 4 = 0 ∧ c.length < 253) :=
  ⟨by decide, prog_multi_chunking [1, 2, 3, 4] (by decide)⟩

/-! ### CRC-32 (`src/uploader.py`: `crctab`, `crc32`, `firmware.crc`) -/

/-- The 256-entry CRC table `crctab` from `src/uploader.py` (lines 114-374). -/
def crctab : List Nat := [
  0x00000000, 0x77073096, 0xEE0E612C, 0x990951BA, 0x076DC419, 0x706AF48F, 0xE963A535, 0x9E6495A3,
  0x0EDB8832, 0x79DCB8A4, 0xE0D5E91E, 0x97D2D988, 0x09B64C2B, 0x7EB17CBD, 0xE7B82D07, 0x90BF1D91,
  0x1DB71064, 0x6AB020F2, 0xF3B97148, 0x84BE41DE, 0x1ADAD47D, 0x6DDDE4EB, 0xF4D4B551, 0x83D385C7,
  0x136C9856, 0x646BA8C0, 0xFD62F97A, 0x8A65C9EC, 0x14015C4F, 0x63066CD9, 0xFA0F3D63, 0x8D080DF5,
  0x3B6E20C8, 0x4C69105E, 0xD56041E4, 0xA2677172, 0x3C03E4D1, 0x4B04D447, 0xD20D85FD, 0xA50AB56B,
  0x35B5A8FA, 0x42B2986C, 0xDBBBC9D6, 0xACBCF940, 0x32D86CE3, 0x45DF5C75, 0xDCD60DCF, 0xABD13D59,
  0x26D930AC, 0x51DE003A, 0xC8D75180, 0xBFD06116, 0x21B4F4B5, 0x56B3C423, 0xCFBA9599, 0xB8BDA50F,
  0x2802B89E, 0x5F058808, 0xC60CD9B2, 0xB10BE924, 0x2F6F7C87, 0x58684C11, 0xC1611DAB, 0xB6662D3D,
  0x76DC4190, 0x01DB7106, 0x98D220BC, 0xEFD5102A, 0x71B18589, 0x06B6B51F, 0x9FBFE4A5, 0xE8B8D433,
  0x7807C9A2, 0x0F00F934, 0x9609A88E, 0xE10E9818, 0x7F6A0DBB, 0x086D3D2D, 0x91646C97, 0xE6635C01,
  0x6B6B51F4, 0x1C6C6162, 0x856530D8, 0xF262004E, 0x6C0695ED, 0x1B01A57B, 0x8208F4C1, 0xF50FC457,
  0x65B0D9C6, 0x12B7E950, 0x8BBEB8EA, 0xFCB9887C, 0x62DD1DDF, 0x15DA2D49, 0x8CD37CF3, 0xFBD44C65,
  0x4DB26158, 0x3AB551CE, 0xA3BC0074, 0xD4BB30E2, 0x4ADFA541, 0x3DD895D7, 0xA4D1C46D, 0xD3D6F4FB,
  0x4369E96A, 0x346ED9FC, 0xAD678846, 0xDA60B8D0, 0x44042D73, 0x33031DE5, 0xAA0A4C5F, 0xDD0D7CC9,
  0x5005713C, 0x270241AA, 0xBE0B1010, 0xC90C2086, 0x5768B525, 0x206F85B3, 0xB966D409, 0xCE61E49F,
  0x5EDEF90E, 0x29D9C998, 0xB0D09822, 0xC7D7A8B4, 0x59B33D17, 0x2EB40D81, 0xB7BD5C3B, 0xC0BA6CAD,
  0xEDB88320, 0x9ABFB3B6, 0x03B6E20C, 0x74B1D29A, 0xEAD54739, 0x9DD277AF, 0x04DB2615, 0x73DC1683,
  0xE3630B12, 0x94643B84, 0x0D6D6A3E, 0x7A6A5AA8, 0xE40ECF0B, 0x9309FF9D, 0x0A00AE27, 0x7D079EB1,
  0xF00F9344, 0x8708A3D2, 0x1E01F268, 0x6906C2FE, 0xF762575D, 0x806567CB, 0x196C3671, 0x6E6B06E7,
  0xFED41B76, 0x89D32BE0, 0x10DA7A5A, 0x67DD4ACC, 0xF9B9DF6F, 0x8EBEEFF9, 0x17B7BE43, 0x60B08ED5,
  0xD6D6A3E8, 0xA1D1937E, 0x38D8C2C4, 0x4FDFF252, 0xD1BB67F1, 0xA6BC5767, 0x3FB506DD, 0x48B2364B,
  0xD80D2BDA, 0xAF0A1B4C, 0x36034AF6, 0x41047A60, 0xDF60EFC3, 0xA867DF55, 0x316E8EEF, 0x4669BE79,
  0xCB61B38C, 0xBC66831A, 0x256FD2A0, 0x5268E236, 0xCC0C7795, 0xBB0B4703, 0x220216B9, 0x5505262F,
  0xC5BA3BBE, 0xB2BD0B28, 0x2BB45A92, 0x5CB36A04, 0xC2D7FFA7, 0xB5D0CF31, 0x2CD99E8B, 0x5BDEAE1D,
  0x9B64C2B0, 0xEC63F226, 0x756AA39C, 0x026D930A, 0x9C0906A9, 0xEB0E363F, 0x72076785, 0x05005713,
  0x95BF4A82, 0xE2B87A14, 0x7BB12BAE, 0x0CB61B38, 0x92D28E9B, 0xE5D5BE0D, 0x7CDCEFB7, 0x0BDBDF21,
  0x86D3D2D4, 0xF1D4E242, 0x68DDB3F8, 0x1FDA836E, 0x81BE16CD, 0xF6B9265B, 0x6FB077E1, 0x18B74777,
  0x88085AE6, 0xFF0F6A70, 0x66063BCA, 0x11010B5C, 0x8F659EFF, 0xF862AE69, 0x616BFFD3, 0x166CCF45,
  0xA00AE278, 0xD70DD2EE, 0x4E048354, 0x3903B3C2, 0xA7672661, 0xD06016F7, 0x4969474D, 0x3E6E77DB,
  0xAED16A4A, 0xD9D65ADC, 0x40DF0B66, 0x37D83BF0, 0xA9BCAE53, 0xDEBB9EC5, 0x47B2CF7F, 0x30B5FFE9,
  0xBDBDF21C, 0xCABAC28A, 0x53B39330, 0x24B4A3A6, 0xBAD03605, 0xCDD70693, 0x54DE5729, 0x23D967BF,
  0xB3667A2E, 0xC4614AB8, 0x5D681B02, 0x2A6F2B94, 0xB40BBE37, 0xC30C8EA1, 0x5A05DF1B, 0x2D02EF8D
]

/-- Function `crc32(bytes, state=0)` from `src/uploader.py`:
`for byte in bytes: index = (state ^ byte) & 0xFF; state = crctab[index] ^ (state >> 8)`. -/
def crc32 (bs : List Nat) (state : Nat) : Nat :=
  bs.foldl (fun st b => crctab.getD ((st ^^^ b) &&& 0xFF) 0 ^^^ (st >>> 8)) state

/-- Constant `firmware.crcpad = bytearray(b"\xff\xff\xff\xff")`. -/
def crcpad : List Nat := [0xFF, 0xFF, 0xFF, 0xFF]

/-- The padding loop of `firmware.crc`:
`for i in range(len(self.image), (padlen - 1), 4): state = crc32(self.crcpad, state)`.
`stop` is `padlen - 1` (in Nat; for `padlen = 0` Python has stop `-1` and the
range is empty, matching `0 - 1 = 0` here because the counter starts at `0 ≥ 0`). -/
def crc_padword_loop (state : Nat) (i stop : Nat) : Nat :=
  if i < stop then crc_padword_loop (crc32 crcpad state) (i + 4) stop else state
termination_by stop - i
decreasing_by omega

/-- Function `firmware.crc(padlen)`: CRC the image from state 0, then fold in pad words. -/
def firmware_crc (image : List Nat) (padlen : Nat) : Nat :=
  crc_padword_loop (crc32 image 0) image.length (padlen - 1)

/-- One bit-step of the reversed-polynomial CRC-32:
shift right, conditionally xor `0xEDB88320`.  (Spec-side definition, from the
glossary wording of the specification.) -/
def crc32_step_bit (x : Nat) : Nat :=
  if x % 2 = 1 then (x >>> 1) ^^^ 0xEDB88320 else x >>> 1

/-- Spec-side table entry: eight bit-steps applied to the byte index. -/
def crc32_table_entry (i : Nat) : Nat := crc32_step_bit^[8] i

/-- Spec-side 256-entry table generated from the reversed polynomial. -/
def reference_crctab : List Nat := (List.range 256).map crc32_table_entry

/-- Spec-side table-driven CRC-32: initial state 0, no final XOR. -/
def crc32_reference (bs : List Nat) : Nat :=
  bs.foldl (fun st b => reference_crctab.getD ((st ^^^ b) &&& 0xFF) 0 ^^^ (st >>> 8)) 0

set_option maxRecDepth 100000 in
/-- The table in the source is exactly the table generated from the reversed
polynomial `0xEDB88320`. -/
theorem reference_crctab_eq : reference_crctab = crctab := by decide

theorem crc32_append (bs1 bs2 : List Nat) (s : Nat) :
    crc32 (bs1 ++ bs2) s = crc32 bs2 (crc32 bs1 s) := by
  simp [crc32, List.foldl_append]

theorem crc32_reference_eq_crc32 (bs : List Nat) : crc32_reference bs = crc32 bs 0 := by
  simp [crc32_reference, crc32, reference_crctab_eq]

theorem crc_padword_loop_eq (q : Nat) :
    ∀ (s i stop : Nat), stop ≤ i + 4 * q → (∀ j < q, i + 4 * j < stop) →
      crc_padword_loop s i stop = crc32 (List.replicate q crcpad).flatten s := by
  induction q with
  | zero =>
    intro s i stop h1 _
    rw [crc_padword_loop.eq_def, if_neg (by omega)]
    simp [crc32]
  | succ q ih =>
    intro s i stop h1 h2
    have hi : i < stop := by simpa using h2 0 (Nat.succ_pos q)
    rw [crc_padword_loop.eq_def, if_pos hi]
    rw [ih (crc32 crcpad s) (i + 4) stop (by omega)
      (fun j hj => by have := h2 (j + 1) (by omega); omega)]
    rw [List.replicate_succ, List.flatten_cons, crc32_append]

/-- C2: for a 4-byte-aligned image and a 4-byte-aligned `padlen ≥ len(image)`,
`firmware.crc(padlen)` is the table-driven CRC-32 (reversed polynomial
`0xEDB88320`, initial state 0, no final XOR) of the image followed by exactly
`(padlen - len(image))/4` repetitions of `FF FF FF FF`. -/
theorem firmware_crc_spec (image : List Nat) (padlen : Nat)
    (h4 : image.length % 4 = 0) (hp4 : padlen % 4 = 0) (hle : image.length ≤ padlen) :
    firmware_crc image padlen =
      crc32_reference
        (image ++ (List.replicate ((padlen - image.length) / 4) crcpad).flatten) := by
  have hq : 4 * ((padlen - image.length) / 4) = padlen - image.length := by omega
  rw [crc32_reference_eq_crc32, crc32_append]
  unfold firmware_crc
  exact crc_padword_loop_eq _ _ _ _ (by omega) (fun j hj => by omega)

/-- C2 witness: the CRC theorem applied to the image `[1, 2, 3, 4]` with
`padlen = 8`. -/
theorem firmware_crc_spec_witness :
    (([1, 2, 3, 4] : List Nat).length % 4 = 0 ∧ (8 : Nat) % 4 = 0 ∧
      ([1, 2, 3, 4] : List Nat).length ≤ 8) ∧
    firmware_crc [1, 2, 3, 4] 8 =
      crc32_reference
        ([1, 2, 3, 4] ++ (List.replicate ((8 - ([1, 2, 3, 4] : List Nat).length) / 4) crcpad).flatten) :=
  ⟨⟨by decide, by decide, by decide⟩, firmware_crc_spec [1, 2, 3, 4] 8 (by decide) (by decide) (by decide)⟩

/-! ### Upload board-compatibility gate (`uploader.upload`, lines 1164-1228) -/

/-- Table `compatible_IDs` from `src/uploader.py` line 110: it maps board
type 33 to the pair of compatible board id 9 and label AUAVX2.1. -/
def compatible_IDs (board_type : Nat) : Option (Nat × String) :=
  if board_type = 33 then some (9, "AUAVX2.1") else none

/-- Errors raised by `uploader.upload`. -/
inductive UploadError
  | incompatibleBoard
  | imageTooLarge
deriving DecidableEq

/-- Protocol operations issued by `uploader.upload`, in order. -/
inductive UploadCmd
  | dumpInfo
  | setBaud
  | extfErase
  | extfProgMulti
  | extfGetCrc
  | chipErase
  | chipFullErase
  | progMulti
  | verifyV2
  | getCrcV3
  | setBootDelay
  | reboot
deriving DecidableEq

/-- Static data of an `uploader` instance and its loaded firmware at the time
`upload` is called. -/
structure UploadCfg where
  board_type : Nat
  fw_board_id : Nat
  image_size : Nat
  extf_image_size : Nat
  fw_maxsize : Nat
  extf_maxsize : Nat
  bl_rev : Nat
  force_erase : Bool
  baud_change : Bool
  boot_delay : Option Int

/-- The `incomp` flag computed at the top of `uploader.upload`: true when the
board id mismatches and the compatibility table does not map `board_type` to
exactly the firmware board id. -/
def upload_incompatible (board_type fw_board_id : Nat) : Bool :=
  if board_type ≠ fw_board_id then
    match compatible_IDs board_type with
    | some p => decide (p.1 ≠ fw_board_id)
    | none => true
  else false

/-- Function `uploader.upload(fw, force, boot_delay)`: the sequence of protocol
operations issued, paired with the error that aborts the attempt (if any).
An aborting error means no later operation is issued. -/
def upload (c : UploadCfg) (force : Bool) : List UploadCmd × Option UploadError :=
  if upload_incompatible c.board_type c.fw_board_id && !force then
    ([], some UploadError.incompatibleBoard)
  else if c.fw_maxsize < c.image_size || c.extf_maxsize < c.extf_image_size then
    ([UploadCmd.dumpInfo], some UploadError.imageTooLarge)
  else
    ([UploadCmd.dumpInfo] ++
      (if c.baud_change then [UploadCmd.setBaud] else []) ++
      (if 0 < c.extf_image_size then
        [UploadCmd.extfErase, UploadCmd.extfProgMulti, UploadCmd.extfGetCrc] else []) ++
      (if 0 < c.image_size then
        (if c.force_erase then [UploadCmd.chipFullErase] else [UploadCmd.chipErase]) ++
        [UploadCmd.progMulti] ++
        (if c.bl_rev = 2 then [UploadCmd.verifyV2] else [UploadCmd.getCrcV3])
       else []) ++
      (match c.boot_delay with
       | some _ => [UploadCmd.setBootDelay]
       | none => []) ++
      [UploadCmd.reboot], none)

/-- C4: `upload` fails with `IncompatibleBoard` — issuing no command at all, in
particular no erase and no program command — whenever the firmware board id
differs from the board type, unless the compatibility table maps `board_type`
to exactly that firmware board id or `force` is set; and a board with
`board_type = 33` is never rejected as incompatible for firmware with
`board_id = 9`, even without `force`. -/
theorem upload_board_gate :
    (∀ (c : UploadCfg) (force : Bool), c.fw_board_id ≠ c.board_type →
        (∀ p, compatible_IDs c.board_type = some p → p.1 ≠ c.fw_board_id) →
        force = false →
        upload c force = ([], some UploadError.incompatibleBoard)) ∧
    (∀ (c : UploadCfg) (force : Bool), c.board_type = 33 → c.fw_board_id = 9 →
        (upload c force).2 ≠ some UploadError.incompatibleBoard) := by
  constructor
  · intro c force hne hcompat hforce
    subst hforce
    have hinc : upload_incompatible c.board_type c.fw_board_id = true := by
      unfold upload_incompatible
      rw [if_pos (Ne.symm hne)]
      cases h : compatible_IDs c.board_type with
      | none => rfl
      | some p => simpa using hcompat p h
    unfold upload
    rw [hinc]
    rfl
  · intro c force h33 h9
    have hinc : upload_incompatible c.board_type c.fw_board_id = false := by
      unfold upload_incompatible
      rw [h33, h9]
      rw [if_pos (by omega)]
      simp [compatible_IDs]
    unfold upload
    rw [hinc]
    simp only [Bool.false_and, Bool.false_eq_true, if_false]
    by_cases hsz : c.fw_maxsize < c.image_size ∨ c.extf_maxsize < c.extf_image_size
    · rw [if_pos (by simpa using hsz)]
      simp
    · rw [if_neg (by simpa using hsz)]
      simp

/-- C4 witness: a mismatched board (`board_type = 50`, firmware `board_id =
140`) is rejected without force, while `board_type = 33` with firmware
`board_id = 9` is not rejected as incompatible. -/
theorem upload_board_gate_witness :
    upload ⟨50, 140, 1000, 0, 2000000, 0, 3, false, false, none⟩ false
      = ([], some UploadError.incompatibleBoard) ∧
    (upload ⟨33, 9, 1000, 0, 2000000, 0, 3, false, false, none⟩ false).2
      ≠ some UploadError.incompatibleBoard :=
  ⟨upload_board_gate.1 ⟨50, 140, 1000, 0, 2000000, 0, 3, false, false, none⟩ false
      (by decide) (fun p hp => by simp [compatible_IDs] at hp) rfl,
    upload_board_gate.2 ⟨33, 9, 1000, 0, 2000000, 0, 3, false, false, none⟩ false rfl rfl⟩

/-! ### Progress UI rows (`src/progress_ui.py`, `ProgressUI.add_dronecan_device`) -/

/-- Record `DeviceStatus` from `src/progress_ui.py` (progress held abstractly as a
natural number; `add_dronecan_device` passes the default `0.0`). -/
structure DeviceStatus where
  name : String
  port : String
  device_type : String
  status : String
  progress : Nat
  error_msg : Option String
  interface : Option String
deriving DecidableEq

/-- Lookup of a device row by `device_id` in the `dronecan_devices` dict. -/
def rowLookup (devices : List (String × DeviceStatus)) (device_id : String) :
    Option DeviceStatus :=
  (devices.find? (fun p => p.1 == device_id)).map Prod.snd

/-- Method `ProgressUI.add_dronecan_device`: inserts a fresh row only when
`device_id` is not already present. -/
def add_dronecan_device (devices : List (String × DeviceStatus))
    (device_id name node_id device_type : String) (interface : Option String)
    (status : String) : List (String × DeviceStatus) :=
  if devices.any (fun p => p.1 == device_id) then devices
  else devices ++ [(device_id, ⟨name, node_id, device_type, status, 0, none, interface⟩)]

/-- C10: re-adding an already-registered `device_id` leaves every existing row
(status, progress, error message included) untouched, and a previously unknown
`device_id` appends exactly one fresh row. -/
theorem add_dronecan_device_frame :
    (∀ devices device_id name node_id device_type interface status id0 r,
        rowLookup devices id0 = some r →
        rowLookup (add_dronecan_device devices device_id name node_id device_type
          interface status) id0 = some r) ∧
    (∀ devices device_id name node_id device_type interface status,
        rowLookup devices device_id = none →
        add_dronecan_device devices device_id name node_id device_type interface status
          = devices ++ [(device_id, ⟨name, node_id, device_type, status, 0, none,
              interface⟩)]) := by
  constructor
  · intro devices device_id name node_id device_type interface status id0 r hr
    unfold add_dronecan_device
    by_cases h : devices.any (fun p => p.1 == device_id)
    · rw [if_pos h]; exact hr
    · rw [if_neg h]
      unfold rowLookup at hr ⊢
      rw [List.find?_append]
      cases hf : devices.find? (fun p => p.1 == id0) with
      | none => rw [hf] at hr; simp at hr
      | some e => rw [hf] at hr; simp [hf, Option.orElse] at hr ⊢; exact hr
  · intro devices device_id name node_id device_type interface status hnone
    unfold add_dronecan_device
    rw [if_neg]
    intro hany
    obtain ⟨p, hp, hpid⟩ := List.any_eq_true.mp hany
    unfold rowLookup at hnone
    have hfind : devices.find? (fun q => q.1 == device_id) = none :=
      Option.map_eq_none'.mp hnone
    exact absurd hpid (by simpa using List.find?_eq_none.mp hfind p hp)

/-- C10 witness: a concrete registry with one row keeps that row when its id is
re-added, and appends a fresh row for a new id. -/
theorem add_dronecan_device_frame_witness :
    (rowLookup [("a", ⟨"n", "p", "t", "uploading", 42, none, none⟩)] "a"
        = some ⟨"n", "p", "t", "uploading", 42, none, none⟩ ∧
      rowLookup (add_dronecan_device [("a", ⟨"n", "p", "t", "uploading", 42, none, none⟩)]
          "a" "n2" "p2" "t2" none ("queued")) "a"
        = some ⟨"n", "p", "t", "uploading", 42, none, none⟩) ∧
    (rowLookup [("a", ⟨"n", "p", "t", "uploading", 42, none, none⟩)] "b" = none ∧
      add_dronecan_device [("a", ⟨"n", "p", "t", "uploading", 42, none, none⟩)]
          "b" "n2" "p2" "t2" none ("queued")
        = [("a", ⟨"n", "p", "t", "uploading", 42, none, none⟩),
           ("b", ⟨"n2", "p2", "t2", "queued", 0, none, none⟩)]) :=
  ⟨⟨by decide,
      add_dronecan_device_frame.1 _ ("a") "n2" "p2" "t2" none ("queued") ("a") _ (by decide)⟩,
    ⟨by decide,
      add_dronecan_device_frame.2 _ ("b") "n2" "p2" "t2" none ("queued") (by decide)⟩⟩

/-! ### Orchestrator (`src/main.py` `BatchFirmwareUpdater.run`,
`src/cube_updater.py` `CubeUpdater.update_devices`) -/

/-- Outcome of one worker future in `update_devices`: `future.result()` either
returns a boolean or raises. -/
inductive FutResult
  | ok (b : Bool)
  | exn
deriving DecidableEq

/-- Method `CubeUpdater.update_devices`: counts futures whose `result()` returned
`True` (failures and exceptions are passed over) and reports success iff the
count equals the number of submitted devices. -/
def update_devices_success (results : List FutResult) : Bool :=
  (results.filter (fun r => r == FutResult.ok true)).length == results.length

/-- Method `BatchFirmwareUpdater.run`, reduced to its control flow: the returned exit
code paired with whether Phase B (`dronecan_monitor.start_monitoring`) is
reached.  `needing` carries one future outcome per device in
`devices_needing_update`; Phase B itself returns exit code 0. -/
def run (skip fwExists cubesEmpty : Bool) (needing : List FutResult)
    (autoYes userYes : Bool) : Nat × Bool :=
  if skip then (0, true)
  else if !fwExists then (1, false)
  else if cubesEmpty then (0, true)
  else if needing.isEmpty then (0, true)
  else if autoYes || userYes then
    if update_devices_success needing then (0, true) else (1, false)
  else (0, true)

theorem update_devices_success_iff (results : List FutResult) :
    update_devices_success results = true ↔ ∀ r ∈ results, r = FutResult.ok true := by
  unfold update_devices_success
  rw [beq_iff_eq, List.filter_length_eq_length]
  simp

/-- C8: when Phase A runs its parallel update step and any device update
fails, `run` returns exit code 1 and Phase B is never started; and
`update_devices` reports overall success exactly when every submitted device
update returned `True`. -/
theorem phaseA_gates_phaseB :
    (∀ (fwExists : Bool) (needing : List FutResult) (autoYes userYes : Bool),
        fwExists = true → needing ≠ [] → (autoYes || userYes) = true →
        (∃ r ∈ needing, r ≠ FutResult.ok true) →
        run false fwExists false needing autoYes userYes = (1, false)) ∧
    (∀ results : List FutResult,
        update_devices_success results = true ↔ ∀ r ∈ results, r = FutResult.ok true) := by
  refine ⟨?_, update_devices_success_iff⟩
  intro fwExists needing autoYes userYes hfw hne hyes hfail
  subst hfw
  have hsucc : update_devices_success needing = false := by
    rw [Bool.eq_false_iff]
    intro h
    obtain ⟨r, hr, hrne⟩ := hfail
    exact hrne ((update_devices_success_iff needing).mp h r hr)
  unfold run
  simp [hne, hyes, hsucc]

/-- C8 witness: with one successful and one failing device update, the program
exits with code 1 before Phase B; the success predicate evaluated on an
all-successful list is covered by the equivalence. -/
theorem phaseA_gates_phaseB_witness :
    run false true false [FutResult.ok true, FutResult.ok false] true false = (1, false) ∧
    (update_devices_success [FutResult.ok true] = true ↔
      ∀ r ∈ [FutResult.ok true], r = FutResult.ok true) :=
  ⟨phaseA_gates_phaseB.1 true [FutResult.ok true, FutResult.ok false] true false rfl
      (by decide) rfl ⟨FutResult.ok false, by decide, by decide⟩,
    phaseA_gates_phaseB.2 [FutResult.ok true]⟩

/-! ### Phase A device detection (`src/cube_updater.py`, `CubeUpdater.detect_devices`) -/

/-- Record `CubeDevice` from `src/cube_updater.py` (fields touched by detection). -/
structure CubeDevice where
  port : String
  board_type : Nat
  board_rev : Nat
  board_name : String
deriving DecidableEq

/-- Board data returned by a successful `_identify_device` on a port. -/
structure BoardInfo where
  board_type : Nat
  board_rev : Nat
  board_name : String
deriving DecidableEq

/-- Observable trace of `detect_devices`: the accumulated device list, the
inter-round sleeps (milliseconds), and each `(round, port)` on which
`_identify_device` was invoked. -/
structure DetectTrace where
  devices : List CubeDevice
  sleeps_ms : List Nat
  attempts : List (Nat × String)
deriving DecidableEq

/-- One port step of a detection round: skip ports already detected in an
earlier round, otherwise call `_identify_device` (the oracle `identify`) and
record the attempt and any detected device. -/
def detect_round_step (identify : Nat → String → Option BoardInfo) (r : Nat)
    (devices : List CubeDevice) (acc : List CubeDevice × List (Nat × String))
    (port : String) : List CubeDevice × List (Nat × String) :=
  if devices.any (fun d => d.port == port) then acc
  else
    match identify r port with
    | some bi => (acc.1 ++ [⟨port, bi.board_type, bi.board_rev, bi.board_name⟩],
        acc.2 ++ [(r, port)])
    | none => (acc.1, acc.2 ++ [(r, port)])

/-- The inner `for port in possible_ports` loop of one detection round. -/
def detect_round (ports : List String) (identify : Nat → String → Option BoardInfo)
    (r : Nat) (devices : List CubeDevice) : List CubeDevice × List (Nat × String) :=
  ports.foldl (detect_round_step identify r devices) ([], [])

/-- One iteration of the `for detection_round in range(max_detection_rounds)`
loop: extend the device list and, when the round found devices, sleep 2.0 s. -/
def detect_devices_round (roundPorts : Nat → List String)
    (identify : Nat → String → Option BoardInfo) (t : DetectTrace) (r : Nat) :
    DetectTrace :=
  let rd := detect_round (roundPorts r) identify r t.devices
  ⟨t.devices ++ rd.1,
    if rd.1.isEmpty then t.sleeps_ms else t.sleeps_ms ++ [2000],
    t.attempts ++ rd.2⟩

/-- Method `CubeUpdater.detect_devices` with `max_detection_rounds = 3`. -/
def detect_devices (roundPorts : Nat → List String)
    (identify : Nat → String → Option BoardInfo) : DetectTrace :=
  (List.range 3).foldl (detect_devices_round roundPorts identify) ⟨[], [], []⟩

theorem detect_round_attempts_spec (identify : Nat → String → Option BoardInfo)
    (r : Nat) (devices : List CubeDevice) :
    ∀ (ports : List String) (acc : List CubeDevice × List (Nat × String)),
      ∀ a ∈ (ports.foldl (detect_round_step identify r devices) acc).2,
        a ∈ acc.2 ∨ (a.1 = r ∧ devices.any (fun d => d.port == a.2) = false) := by
  intro ports
  induction ports with
  | nil => exact fun acc a ha => Or.inl ha
  | cons q qs ih =>
    intro acc a ha
    rw [List.foldl_cons] at ha
    rcases ih _ a ha with hin | hnew
    · unfold detect_round_step at hin
      by_cases hq : devices.any (fun d => d.port == q)
      · rw [if_pos hq] at hin
        exact Or.inl hin
      · rw [if_neg hq] at hin
        have hmem : a ∈ acc.2 ++ [(r, q)] := by
          cases hid : identify r q <;> rw [hid] at hin <;> exact hin
        rcases List.mem_append.mp hmem with h | h
        · exact Or.inl h
        · have haq : a = (r, q) := by simpa using h
          subst haq
          exact Or.inr ⟨rfl, by simpa using hq⟩
    · exact Or.inr hnew

theorem detect_devices_round_sleeps (roundPorts : Nat → List String)
    (identify : Nat → String → Option BoardInfo) (t : DetectTrace) (r : Nat) :
    ((detect_devices_round roundPorts identify t r).sleeps_ms = t.sleeps_ms ∨
      (detect_devices_round roundPorts identify t r).sleeps_ms = t.sleeps_ms ++ [2000]) ∧
    (detect_devices_round roundPorts identify t r).attempts
      = t.attempts ++ (detect_round (roundPorts r) identify r t.devices).2 := by
  unfold detect_devices_round
  refine ⟨?_, rfl⟩
  by_cases h : (detect_round (roundPorts r) identify r t.devices).1.isEmpty <;>
    simp [h]

theorem detect_fold_inv (roundPorts : Nat → List String)
    (identify : Nat → String → Option BoardInfo) (rs : List Nat) :
    ∀ t : DetectTrace,
      (∀ x ∈ t.sleeps_ms, x = 2000) → (∀ a ∈ t.attempts, a.1 < 3) →
      (∀ r ∈ rs, r < 3) →
      (∀ x ∈ (rs.foldl (detect_devices_round roundPorts identify) t).sleeps_ms,
        x = 2000) ∧
      (∀ a ∈ (rs.foldl (detect_devices_round roundPorts identify) t).attempts,
        a.1 < 3) ∧
      (rs.foldl (detect_devices_round roundPorts identify) t).sleeps_ms.length
        ≤ t.sleeps_ms.length + rs.length := by
  induction rs with
  | nil => exact fun t hs ha _ => ⟨hs, ha, by simp⟩
  | cons r rs ih =>
    intro t hs ha hr
    rw [List.foldl_cons]
    obtain ⟨hsl, hat⟩ := detect_devices_round_sleeps roundPorts identify t r
    have hs2 : ∀ x ∈ (detect_devices_round roundPorts identify t r).sleeps_ms,
        x = 2000 := by
      rcases hsl with h | h <;> rw [h] <;> intro x hx
      · exact hs x hx
      · rcases List.mem_append.mp hx with h2 | h2
        · exact hs x h2
        · simpa using h2
    have ha2 : ∀ a ∈ (detect_devices_round roundPorts identify t r).attempts,
        a.1 < 3 := by
      rw [hat]
      intro a hx
      rcases List.mem_append.mp hx with h2 | h2
      · exact ha a h2
      · rcases detect_round_attempts_spec identify r t.devices (roundPorts r) ([], []) a h2
          with h3 | h3
        · simp at h3
        · rw [h3.1]
          exact hr r (List.mem_cons_self r rs)
    have hlen2 : (detect_devices_round roundPorts identify t r).sleeps_ms.length
        ≤ t.sleeps_ms.length + 1 := by
      rcases hsl with h | h <;> rw [h] <;> simp
    obtain ⟨c1, c2, c3⟩ := ih (detect_devices_round roundPorts identify t r) hs2 ha2
      (fun x hx => hr x (List.mem_cons_of_mem r hx))
    refine ⟨c1, c2, ?_⟩
    calc (rs.foldl (detect_devices_round roundPorts identify)
            (detect_devices_round roundPorts identify t r)).sleeps_ms.length
        ≤ (detect_devices_round roundPorts identify t r).sleeps_ms.length + rs.length := c3
      _ ≤ t.sleeps_ms.length + 1 + rs.length := by omega
      _ = t.sleeps_ms.length + (r :: rs).length := by simp; omega

/-- C9 counterexample: with one port on which a device is found in the first
round, `detect_devices` sleeps 2000 ms between rounds — never 500 ms — so the
claimed 500 ms inter-round delay does not hold. -/
theorem detect_devices_sleep_not_500 :
    (detect_devices (fun _ => ["p1"])
        (fun r _ => if r = 0 then some ⟨140, 0, "CubeOrange"⟩ else none)).sleeps_ms
      = [2000] ∧
    500 ∉ (detect_devices (fun _ => ["p1"])
        (fun r _ => if r = 0 then some ⟨140, 0, "CubeOrange"⟩ else none)).sleeps_ms := by
  constructor <;> decide

/-- C9 (amended): detection performs at most 3 rounds (all identify attempts
carry a round index below 3), waits 2000 ms — not 500 ms — after each round in
which at least one new device was detected, and within a round never attempts
a port on which a device was already detected in an earlier round. -/
theorem detect_devices_behavior :
    (∀ (roundPorts : Nat → List String) (identify : Nat → String → Option BoardInfo),
        (∀ x ∈ (detect_devices roundPorts identify).sleeps_ms, x = 2000) ∧
        (detect_devices roundPorts identify).sleeps_ms.length ≤ 3 ∧
        (∀ a ∈ (detect_devices roundPorts identify).attempts, a.1 < 3)) ∧
    (∀ (ports : List String) (identify : Nat → String → Option BoardInfo)
        (r : Nat) (devices : List CubeDevice) (p : String),
        devices.any (fun d => d.port == p) = true →
        (r, p) ∉ (detect_round ports identify r devices).2) := by
  constructor
  · intro roundPorts identify
    obtain ⟨c1, c2, c3⟩ := detect_fold_inv roundPorts identify (List.range 3)
      ⟨[], [], []⟩ (by simp) (by simp) (fun r hr => List.mem_range.mp hr)
    exact ⟨c1, by simpa using c3, c2⟩
  · intro ports identify r devices p hp hmem
    rcases detect_round_attempts_spec identify r devices ports ([], []) (r, p) hmem
      with h | h
    · simp at h
    · rw [hp] at h
      exact absurd h.2 (by simp)

/-- C9 witness: the amended behaviour at a concrete oracle — a device detected
on port `p1` in round 0 is never re-attempted later. -/
theorem detect_devices_behavior_witness :
    ((∀ x ∈ (detect_devices (fun _ => ["p1", "p2"]) (fun _ _ => none)).sleeps_ms,
        x = 2000) ∧
      (detect_devices (fun _ => ["p1", "p2"]) (fun _ _ => none)).sleeps_ms.length ≤ 3 ∧
      (∀ a ∈ (detect_devices (fun _ => ["p1", "p2"]) (fun _ _ => none)).attempts,
        a.1 < 3)) ∧
    (([⟨"p1", 140, 0, "CubeOrange"⟩] : List CubeDevice).any
        (fun d => d.port == "p1") = true ∧
      (1, "p1") ∉ (detect_round ["p1", "p2"] (fun _ _ => none) 1
        [⟨"p1", 140, 0, "CubeOrange"⟩]).2) :=
  ⟨detect_devices_behavior.1 (fun _ => ["p1", "p2"]) (fun _ _ => none),
    ⟨by decide,
      detect_devices_behavior.2 ["p1", "p2"] (fun _ _ => none) 1
        [⟨"p1", 140, 0, "CubeOrange"⟩] "p1" (by decide)⟩⟩

/-! ### Per-peer update version gate
(`src/dronecan_monitor.py`, `_perform_dronecan_update`, lines 420-443) -/

/-- Stages of `_perform_dronecan_update` relevant to the version gate. -/
inductive UpdateStage
  | firmwareFlash
  | bootloaderFlash
  | restartNode
deriving DecidableEq

/-- Result of one per-peer update run: the stages performed and the returned
success flag. -/
structure UpdateRun where
  stages : List UpdateStage
  success : Bool
deriving DecidableEq

/-- Target-version extraction from the firmware filename:
`if firmware_filename.startswith("firmware_") and firmware_filename.endswith(".bin"):`
`    target_version = firmware_filename[9:-4]` (else `None`).
Python strings are embedded as `List Char`; `startswith`/`endswith` are the
prefix/suffix comparisons on the character list. -/
def targetVersionOfFilename (fn : List Char) : Option (List Char) :=
  if fn.take 9 = "firmware_".toList ∧ fn.drop (fn.length - 4) = ".bin".toList then
    some ((fn.drop 9).take (fn.length - 13))
  else none

/-- The version gate of `_perform_dronecan_update`: when a (non-empty) target
version was extracted and the current operational version equals it, skip the
firmware flash but run the bootloader self-flash and the final restart and
return `True`; otherwise fall through to the flashing path `flashRun`. -/
def perform_update_version_gate (fn currentVersion : List Char)
    (flashRun : UpdateRun) : UpdateRun :=
  match targetVersionOfFilename fn with
  | some tv =>
    if tv ≠ [] then
      if currentVersion = tv then
        ⟨[UpdateStage.bootloaderFlash, UpdateStage.restartNode], true⟩
      else flashRun
    else flashRun
  | none => flashRun

theorem targetVersion_strip (v : List Char) :
    targetVersionOfFilename ("firmware_".toList ++ v ++ ".bin".toList) = some v := by
  unfold targetVersionOfFilename
  have hp : ("firmware_".toList).length = 9 := by decide
  have hq : (".bin".toList).length = 4 := by decide
  rw [List.append_assoc]
  have hlen : ("firmware_".toList ++ (v ++ ".bin".toList)).length = 13 + v.length := by
    simp only [List.length_append, hp, hq]
    omega
  rw [if_pos ?cond]
  case cond =>
    constructor
    · rw [← hp, List.take_left]
    · rw [hlen]
      have h2 : 13 + v.length - 4 = ("firmware_".toList ++ v).length := by
        simp only [List.length_append, hp]
        omega
      rw [h2, ← List.append_assoc, List.drop_left]
  · rw [hlen]
    have h13 : 13 + v.length - 13 = v.length := by omega
    rw [h13, ← hp, List.drop_left, List.take_left]

/-- C6: the target version is obtained by stripping the `firmware_` prefix and
`.bin` suffix from the firmware filename, and whenever the peer's current
operational version (a non-empty string) equals this target, the firmware
flash stage is skipped while the bootloader self-flash and the final restart
are still performed and the update reports success. -/
theorem version_match_skips_flash (v currentVersion : List Char)
    (flashRun : UpdateRun) :
    targetVersionOfFilename ("firmware_".toList ++ v ++ ".bin".toList) = some v ∧
    (v ≠ [] → currentVersion = v →
      perform_update_version_gate ("firmware_".toList ++ v ++ ".bin".toList)
          currentVersion flashRun
        = ⟨[UpdateStage.bootloaderFlash, UpdateStage.restartNode], true⟩ ∧
      UpdateStage.firmwareFlash ∉
        (perform_update_version_gate ("firmware_".toList ++ v ++ ".bin".toList)
          currentVersion flashRun).stages ∧
      (perform_update_version_gate ("firmware_".toList ++ v ++ ".bin".toList)
          currentVersion flashRun).success = true) := by
  refine ⟨targetVersion_strip v, fun hne hcur => ?_⟩
  have hgate : perform_update_version_gate ("firmware_".toList ++ v ++ ".bin".toList)
      currentVersion flashRun
      = ⟨[UpdateStage.bootloaderFlash, UpdateStage.restartNode], true⟩ := by
    unfold perform_update_version_gate
    simp only [targetVersion_strip v]
    rw [if_pos hne, if_pos hcur]
  refine ⟨hgate, ?_, ?_⟩
  · rw [hgate]
    decide
  · rw [hgate]

/-- C6 witness: with firmware file `firmware_1.8.abcd12.bin` and a peer whose
current version is `1.8.abcd12`, the flash stage is skipped and the update
succeeds after bootloader self-flash and restart. -/
theorem version_match_skips_flash_witness :
    targetVersionOfFilename
        ("firmware_".toList ++ "1.8.abcd12".toList ++ ".bin".toList)
      = some ("1.8.abcd12".toList) ∧
    ("1.8.abcd12".toList ≠ ([] : List Char) → "1.8.abcd12".toList = "1.8.abcd12".toList →
      perform_update_version_gate
          ("firmware_".toList ++ "1.8.abcd12".toList ++ ".bin".toList)
          "1.8.abcd12".toList ⟨[UpdateStage.firmwareFlash], false⟩
        = ⟨[UpdateStage.bootloaderFlash, UpdateStage.restartNode], true⟩ ∧
      UpdateStage.firmwareFlash ∉
        (perform_update_version_gate
          ("firmware_".toList ++ "1.8.abcd12".toList ++ ".bin".toList)
          "1.8.abcd12".toList ⟨[UpdateStage.firmwareFlash], false⟩).stages ∧
      (perform_update_version_gate
          ("firmware_".toList ++ "1.8.abcd12".toList ++ ".bin".toList)
          "1.8.abcd12".toList ⟨[UpdateStage.firmwareFlash], false⟩).success = true) :=
  version_match_skips_flash ("1.8.abcd12".toList) ("1.8.abcd12".toList)
    ⟨[UpdateStage.firmwareFlash], false⟩

/-! ### Reboot-into-bootloader loop (`uploader.send_reboot`,
`uploader.__next_baud_flightstack`, `find_bootloader` in `src/uploader.py`) -/

/-- The `uploader` state touched by the reboot loop: the bootloader baud, the
flight-stack baud list, the list pointer (`-1` at construction), and the
current port baud rate. -/
structure UploaderSt where
  baudrate_bootloader : Nat
  baudrate_flightstack : List Nat
  baudrate_flightstack_idx : Int
  port_baudrate : Nat
deriving DecidableEq

/-- Constructor `uploader.__init__`: the pointer starts at `-1`, the port is opened at the
bootloader baud rate. -/
def initUploader (baudBootloader : Nat) (bauds : List Nat) : UploaderSt :=
  ⟨baudBootloader, bauds, -1, baudBootloader⟩

/-- Method `uploader.__next_baud_flightstack`: increment the pointer; fail once it
reaches the end of the list, otherwise switch the port to the indexed baud.
(The possible serial-port exception on assignment is external I/O and is not
modelled.) -/
def next_baud_flightstack (st : UploaderSt) : Bool × UploaderSt :=
  if (st.baudrate_flightstack.length : Int) ≤ st.baudrate_flightstack_idx + 1 then
    (false, ⟨st.baudrate_bootloader, st.baudrate_flightstack,
      st.baudrate_flightstack_idx + 1, st.port_baudrate⟩)
  else
    (true, ⟨st.baudrate_bootloader, st.baudrate_flightstack,
      st.baudrate_flightstack_idx + 1,
      st.baudrate_flightstack.getD (st.baudrate_flightstack_idx + 1).toNat 0⟩)

/-- Method `uploader.send_reboot`: returns `False` iff `__next_baud_flightstack`
failed; otherwise emits the MAVLink and NSH reboot sequences (pure output) and
restores the bootloader baud rate. -/
def send_reboot (st : UploaderSt) : Bool × UploaderSt :=
  if (next_baud_flightstack st).1 then
    (true, ⟨(next_baud_flightstack st).2.baudrate_bootloader,
      (next_baud_flightstack st).2.baudrate_flightstack,
      (next_baud_flightstack st).2.baudrate_flightstack_idx,
      (next_baud_flightstack st).2.baudrate_bootloader⟩)
  else (false, (next_baud_flightstack st).2)

theorem send_reboot_advances (st : UploaderSt) :
    (send_reboot st).2.baudrate_flightstack = st.baudrate_flightstack ∧
    (send_reboot st).2.baudrate_flightstack_idx = st.baudrate_flightstack_idx + 1 ∧
    ((send_reboot st).1 = true ↔
      st.baudrate_flightstack_idx + 1 < (st.baudrate_flightstack.length : Int)) := by
  unfold send_reboot next_baud_flightstack
  by_cases hc : (st.baudrate_flightstack.length : Int) ≤ st.baudrate_flightstack_idx + 1
  · rw [if_pos hc]
    refine ⟨rfl, rfl, ?_⟩
    simp only [if_pos hc]
    constructor
    · intro h
      exact absurd h (by simp)
    · intro h
      omega
  · rw [if_neg hc]
    refine ⟨by simp [if_neg hc], by simp [if_neg hc], ?_⟩
    simp only [if_neg hc]
    constructor
    · intro _
      omega
    · intro _
      rfl

/-- Function `find_bootloader(up, port)` from `src/uploader.py` under an oracle
`identifyOk` giving the outcome of each `up.identify()` attempt.  Returns the
result, the final uploader state, and the number of `send_reboot` calls. -/
def find_bootloader (identifyOk : Nat → Bool) (attempt : Nat) (st : UploaderSt) :
    Bool × UploaderSt × Nat :=
  if identifyOk attempt then (true, st, 0)
  else if h : (send_reboot st).1 = true then
    ((find_bootloader identifyOk (attempt + 1) (send_reboot st).2).1,
     (find_bootloader identifyOk (attempt + 1) (send_reboot st).2).2.1,
     (find_bootloader identifyOk (attempt + 1) (send_reboot st).2).2.2 + 1)
  else (false, (send_reboot st).2, 1)
termination_by
  ((st.baudrate_flightstack.length : Int) - st.baudrate_flightstack_idx).toNat
decreasing_by
  have hadv := send_reboot_advances st
  have hlt := hadv.2.2.mp h
  rw [hadv.1, hadv.2.1]
  omega

theorem find_bootloader_all_fail (identifyOk : Nat → Bool)
    (hfail : ∀ k, identifyOk k = false) :
    ∀ (fuel : Nat) (st : UploaderSt) (attempt : Nat),
      ((st.baudrate_flightstack.length : Int) - st.baudrate_flightstack_idx).toNat
        ≤ fuel →
      (find_bootloader identifyOk attempt st).1 = false ∧
      (find_bootloader identifyOk attempt st).2.1.baudrate_flightstack
        = st.baudrate_flightstack ∧
      (st.baudrate_flightstack.length : Int)
        ≤ (find_bootloader identifyOk attempt st).2.1.baudrate_flightstack_idx + 1 ∧
      (find_bootloader identifyOk attempt st).2.2
        = max 1 ((st.baudrate_flightstack.length : Int)
            - st.baudrate_flightstack_idx).toNat := by
  intro fuel
  induction fuel with
  | zero =>
    intro st attempt hm
    have hend : (st.baudrate_flightstack.length : Int)
        ≤ st.baudrate_flightstack_idx + 1 := by omega
    have hadv := send_reboot_advances st
    have hsf : (send_reboot st).1 = false := by
      rw [Bool.eq_false_iff]
      intro h
      have := hadv.2.2.mp h
      omega
    rw [find_bootloader.eq_def, if_neg (by rw [hfail attempt]; simp),
      dif_neg (by rw [hsf]; simp)]
    dsimp only
    refine ⟨rfl, hadv.1, ?_, ?_⟩
    · rw [hadv.2.1]
      omega
    · omega
  | succ fuel ih =>
    intro st attempt hm
    have hadv := send_reboot_advances st
    by_cases hc : st.baudrate_flightstack_idx + 1 < (st.baudrate_flightstack.length : Int)
    · have hst : (send_reboot st).1 = true := hadv.2.2.mpr hc
      rw [find_bootloader.eq_def, if_neg (by rw [hfail attempt]; simp), dif_pos hst]
      dsimp only
      obtain ⟨c1, c2, c3, c4⟩ := ih (send_reboot st).2 (attempt + 1)
        (by rw [hadv.1, hadv.2.1]; omega)
      refine ⟨c1, by rw [c2, hadv.1], ?_, ?_⟩
      · rw [hadv.1] at c3
        exact c3
      · rw [c4, hadv.1, hadv.2.1]
        omega
    · have hsf : (send_reboot st).1 = false := by
        rw [Bool.eq_false_iff]
        intro h
        exact hc (hadv.2.2.mp h)
      rw [find_bootloader.eq_def, if_neg (by rw [hfail attempt]; simp),
        dif_neg (by rw [hsf]; simp)]
      dsimp only
      refine ⟨rfl, hadv.1, ?_, ?_⟩
      · rw [hadv.2.1]
        omega
      · omega

/-- The state after one `send_reboot` call (used to express repeated calls). -/
def send_reboot_state (st : UploaderSt) : UploaderSt := (send_reboot st).2

theorem send_reboot_absorbing (st : UploaderSt)
    (h : (st.baudrate_flightstack.length : Int) ≤ st.baudrate_flightstack_idx + 1) :
    (send_reboot st).1 = false ∧
    (send_reboot_state st).baudrate_flightstack = st.baudrate_flightstack ∧
    ((send_reboot_state st).baudrate_flightstack.length : Int)
      ≤ (send_reboot_state st).baudrate_flightstack_idx + 1 := by
  have hadv := send_reboot_advances st
  refine ⟨?_, hadv.1, ?_⟩
  · rw [Bool.eq_false_iff]
    intro hT
    have := hadv.2.2.mp hT
    omega
  · unfold send_reboot_state
    rw [hadv.1, hadv.2.1]
    omega

/-- C7: `send_reboot` always advances the flight-stack baud pointer by one and
never rewinds it; once the pointer has passed the end of the list it returns
`False`; and on an uploader whose `identify` calls all fail, `find_bootloader`
terminates with `False` after exactly `len(bauds) + 1` `send_reboot` calls
(so at most `len(bauds)` reboots are actually emitted), after which every
further `send_reboot` call on the same uploader returns `False`. -/
theorem find_bootloader_exhausts_bauds :
    (∀ st : UploaderSt,
        (send_reboot st).2.baudrate_flightstack_idx
          = st.baudrate_flightstack_idx + 1) ∧
    (∀ st : UploaderSt,
        (st.baudrate_flightstack.length : Int) ≤ st.baudrate_flightstack_idx + 1 →
        (send_reboot st).1 = false) ∧
    (∀ (baudBootloader : Nat) (bauds : List Nat) (identifyOk : Nat → Bool),
        (∀ k, identifyOk k = false) →
        (find_bootloader identifyOk 0 (initUploader baudBootloader bauds)).1 = false ∧
        (find_bootloader identifyOk 0 (initUploader baudBootloader bauds)).2.2
          = bauds.length + 1 ∧
        (∀ m : Nat,
          (send_reboot (send_reboot_state^[m]
            (find_bootloader identifyOk 0
              (initUploader baudBootloader bauds)).2.1)).1 = false)) := by
  refine ⟨fun st => (send_reboot_advances st).2.1,
    fun st h => ((send_reboot_absorbing st h).1), ?_⟩
  intro baudBootloader bauds identifyOk hfail
  obtain ⟨c1, c2, c3, c4⟩ := find_bootloader_all_fail identifyOk hfail
    (((initUploader baudBootloader bauds).baudrate_flightstack.length : Int)
      - (initUploader baudBootloader bauds).baudrate_flightstack_idx).toNat
    (initUploader baudBootloader bauds) 0 le_rfl
  have habs : ∀ (j : Nat) (s : UploaderSt),
      ((s.baudrate_flightstack.length : Int) ≤ s.baudrate_flightstack_idx + 1) →
      (((send_reboot_state^[j] s).baudrate_flightstack.length : Int)
        ≤ (send_reboot_state^[j] s).baudrate_flightstack_idx + 1) := by
    intro j
    induction j with
    | zero => exact fun s hs => by simpa using hs
    | succ j ihj =>
      intro s hs
      rw [Function.iterate_succ_apply']
      exact (send_reboot_absorbing _ (ihj s hs)).2.2
  refine ⟨c1, ?_, ?_⟩
  · rw [c4]
    unfold initUploader at *
    dsimp only at *
    omega
  · intro m
    refine (send_reboot_absorbing _ (habs m _ ?_)).1
    rw [c2]
    exact c3

/-- C7 witness: a concrete uploader with two flight-stack bauds and an
always-failing identify oracle makes exactly 3 `send_reboot` calls, returns
`False`, and keeps returning `False` on later `send_reboot` calls. -/
theorem find_bootloader_exhausts_bauds_witness :
    (find_bootloader (fun _ => false) 0 (initUploader 115200 [57600, 921600])).1
      = false ∧
    (find_bootloader (fun _ => false) 0 (initUploader 115200 [57600, 921600])).2.2
      = 3 ∧
    (send_reboot (send_reboot_state^[5]
      (find_bootloader (fun _ => false) 0
        (initUploader 115200 [57600, 921600])).2.1)).1 = false := by
  obtain ⟨h1, h2, h3⟩ := find_bootloader_exhausts_bauds.2.2 115200 [57600, 921600]
    (fun _ => false) (fun _ => rfl)
  exact ⟨h1, h2, h3 5⟩

/-! ### Peer registry (`src/dronecan_node.py`, `DroneCANNode.discovered_nodes`,
`_handle_node_info_response`, `_cleanup_stale_nodes`) -/

/-- Record `RemoteDroneCANNode` from `src/dronecan_node.py`. -/
structure RemoteNode where
  node_id : Nat
  device_name : String
  interface : String
  bus_number : Nat
  software_version : String
  hardware_version : String
  unique_id : List Nat
  firmware_path : Option String
  needs_update : Bool
  last_seen : Nat
deriving DecidableEq

/-- The registry state of one `DroneCANNode` transport: `discovered_nodes`
(a Python dict embedded as an insertion-ordered association list) and
`processed_nodes`. -/
structure Registry where
  port : String
  bus_number : Nat
  discovered : List (Nat × RemoteNode)
  processed : List Nat
deriving DecidableEq

/-- Fresh registry of a started transport. -/
def Registry.init (port : String) (bus : Nat) : Registry := ⟨port, bus, [], []⟩

/-- Python `dict` read `d.get(k)`. -/
def dictGet (d : List (Nat × RemoteNode)) (k : Nat) : Option RemoteNode :=
  (d.find? (fun p => p.1 == k)).map Prod.snd

/-- Python `dict` write `d[k] = v`: replace in place when the key exists,
append otherwise. -/
def dictInsert (d : List (Nat × RemoteNode)) (k : Nat) (v : RemoteNode) :
    List (Nat × RemoteNode) :=
  if d.any (fun p => p.1 == k) then
    d.map (fun p => if p.1 == k then (k, v) else p)
  else d ++ [(k, v)]

/-- Python `del d[k]`. -/
def dictErase (d : List (Nat × RemoteNode)) (k : Nat) : List (Nat × RemoteNode) :=
  d.filter (fun p => p.1 != k)

/-- The fields of a `GetNodeInfo` response used by the handler. -/
structure NodeInfoMsg where
  source_node_id : Nat
  unique_id : List Nat
  sw_major : Nat
  sw_minor : Nat
  vcs_commit : Nat
  hw_major : Nat
  hw_minor : Nat

/-- The version string `f"{major}.{minor}"` plus `f".{vcs_commit:x}"` when the
commit is nonzero. -/
def versionString (m : NodeInfoMsg) : String :=
  toString m.sw_major ++ "." ++ toString m.sw_minor ++
    (if m.vcs_commit ≠ 0 then ("." ++ String.mk (Nat.toDigits 16 m.vcs_commit)) else (""))

/-- The hardware version string `f"{major}.{minor}"`. -/
def hwVersionString (m : NodeInfoMsg) : String :=
  toString m.hw_major ++ "." ++ toString m.hw_minor

/-- Handler `DroneCANNode._handle_node_info_response`, state part.  `deviceName` is the
result of `_extract_device_name` (a regex over textual fields, `none` when the
vendor prefix is missing) and `fwPath` the result of `_find_firmware_path`
(filesystem); both are oracles of the embedding.  `callbackSet` tells whether
`new_node_callback` was registered. -/
def handle_node_info_response (st : Registry) (msg : NodeInfoMsg)
    (deviceName : Option String) (fwPath : Option String) (now : Nat)
    (callbackSet : Bool) : Registry :=
  match deviceName with
  | none => st
  | some dname =>
    match st.discovered.find? (fun p => p.2.unique_id == msg.unique_id) with
    | some entry =>
      if entry.1 ≠ msg.source_node_id then
        ⟨st.port, st.bus_number,
          dictInsert (dictErase st.discovered entry.1) msg.source_node_id
            { entry.2 with node_id := msg.source_node_id, last_seen := now },
          st.processed⟩
      else
        ⟨st.port, st.bus_number,
          dictInsert st.discovered entry.1 { entry.2 with last_seen := now },
          st.processed⟩
    | none =>
      if (st.discovered.find? (fun p => p.1 == msg.source_node_id)).isNone then
        if st.processed.contains msg.source_node_id then st
        else
          ⟨st.port, st.bus_number,
            dictInsert st.discovered msg.source_node_id
              ⟨msg.source_node_id, dname, st.port, st.bus_number,
                versionString msg, hwVersionString msg, msg.unique_id,
                fwPath, fwPath.isSome, now⟩,
            if callbackSet then msg.source_node_id :: st.processed
            else st.processed⟩
      else
        ⟨st.port, st.bus_number,
          st.discovered.map (fun p =>
            if p.1 == msg.source_node_id then (p.1, { p.2 with last_seen := now })
            else p),
          st.processed⟩

/-- Method `DroneCANNode._cleanup_stale_nodes`: drop peers not seen for more than
20 seconds; `processed_nodes` is deliberately kept. -/
def cleanup_stale_nodes (st : Registry) (now : Nat) : Registry :=
  ⟨st.port, st.bus_number,
    st.discovered.filter (fun p => decide (now - p.2.last_seen ≤ 20)),
    st.processed⟩

/-- States of one transport's registry reachable by the mutating handlers. -/
inductive Reachable (port : String) (bus : Nat) : Registry → Prop
  | init : Reachable port bus (Registry.init port bus)
  | handle (st : Registry) (msg : NodeInfoMsg) (deviceName : Option String)
      (fwPath : Option String) (now : Nat) (callbackSet : Bool) :
      Reachable port bus st →
      Reachable port bus
        (handle_node_info_response st msg deviceName fwPath now callbackSet)
  | cleanup (st : Registry) (now : Nat) :
      Reachable port bus st →
      Reachable port bus (cleanup_stale_nodes st now)

theorem eq_of_mem_keyNodup :
    ∀ (d : List (Nat × RemoteNode)), (d.map Prod.fst).Nodup →
      ∀ a ∈ d, ∀ b ∈ d, a.1 = b.1 → a = b := by
  intro d
  induction d with
  | nil => simp
  | cons x xs ih =>
    intro hnd a ha b hb hab
    rw [List.map_cons, List.nodup_cons] at hnd
    obtain ⟨hx, hxs⟩ := hnd
    rcases List.mem_cons.mp ha with ha1 | ha2
    · rcases List.mem_cons.mp hb with hb1 | hb2
      · rw [ha1, hb1]
      · exfalso
        apply hx
        rw [← ha1, hab]
        exact List.mem_map_of_mem Prod.fst hb2
    · rcases List.mem_cons.mp hb with hb1 | hb2
      · exfalso
        apply hx
        rw [← hb1, ← hab]
        exact List.mem_map_of_mem Prod.fst ha2
      · exact ih hxs a ha2 b hb2 hab

theorem dictGet_insert_self (d : List (Nat × RemoteNode)) (k : Nat) (v : RemoteNode) :
    dictGet (dictInsert d k v) k = some v := by
  induction d with
  | nil => simp [dictInsert, dictGet]
  | cons x xs ih =>
    unfold dictInsert at ih ⊢
    by_cases hx : x.1 = k
    · rw [if_pos (by simp [List.any_cons, hx])]
      unfold dictGet
      rw [List.map_cons, if_pos (by simpa using hx),
        List.find?_cons_of_pos _ (by simp)]
      rfl
    · have hxf : (x.1 == k) = false := by simpa using hx
      by_cases hany : (xs.any fun p => p.1 == k) = true
      · rw [if_pos (by simp [List.any_cons, hany])]
        rw [if_pos hany] at ih
        unfold dictGet at ih ⊢
        rw [List.map_cons, if_neg (by simpa using hx),
          List.find?_cons_of_neg _ (by simpa using hx)]
        exact ih
      · have hanyf : (xs.any fun p => p.1 == k) = false := Bool.eq_false_iff.mpr hany
        rw [if_neg (by rw [List.any_cons, hxf, hanyf]; simp)]
        rw [if_neg hany] at ih
        unfold dictGet at ih ⊢
        rw [List.cons_append, List.find?_cons_of_neg _ (by simpa using hx)]
        exact ih

theorem dictGet_eq_none (d : List (Nat × RemoteNode)) (k : Nat)
    (h : ∀ p ∈ d, p.1 ≠ k) : dictGet d k = none := by
  unfold dictGet
  rw [List.find?_eq_none.mpr]
  · rfl
  · intro p hp
    simpa using h p hp

theorem dictErase_WF (d : List (Nat × RemoteNode)) (k : Nat)
    (hkeys : (d.map Prod.fst).Nodup)
    (huid : ∀ a ∈ d, ∀ b ∈ d, a.2.unique_id = b.2.unique_id → a.1 = b.1) :
    ((dictErase d k).map Prod.fst).Nodup ∧
    (∀ a ∈ dictErase d k, ∀ b ∈ dictErase d k,
      a.2.unique_id = b.2.unique_id → a.1 = b.1) := by
  constructor
  · exact hkeys.sublist (List.Sublist.map Prod.fst (List.filter_sublist d))
  · intro a ha b hb hab
    exact huid a (List.mem_of_mem_filter ha) b (List.mem_of_mem_filter hb) hab

theorem dictInsert_WF (d : List (Nat × RemoteNode)) (k : Nat) (v : RemoteNode)
    (hkeys : (d.map Prod.fst).Nodup)
    (huid : ∀ a ∈ d, ∀ b ∈ d, a.2.unique_id = b.2.unique_id → a.1 = b.1)
    (hfresh : ∀ a ∈ d, a.1 ≠ k → a.2.unique_id ≠ v.unique_id) :
    ((dictInsert d k v).map Prod.fst).Nodup ∧
    (∀ a ∈ dictInsert d k v, ∀ b ∈ dictInsert d k v,
      a.2.unique_id = b.2.unique_id → a.1 = b.1) := by
  unfold dictInsert
  by_cases hany : (d.any fun p => p.1 == k) = true
  · rw [if_pos hany]
    have hfst : ∀ p : Nat × RemoteNode,
        ((if p.1 == k then (k, v) else p) : Nat × RemoteNode).1 = p.1 := by
      intro p
      by_cases hp : (p.1 == k) = true
      · rw [if_pos hp]
        exact (beq_iff_eq.mp hp).symm
      · rw [if_neg hp]
    constructor
    · rw [List.map_map]
      have hcomp : (Prod.fst ∘ fun p : Nat × RemoteNode => if p.1 == k then (k, v) else p)
          = Prod.fst := funext fun p => hfst p
      rw [hcomp]
      exact hkeys
    · intro x hx y hy hxy
      obtain ⟨a, ha, rfl⟩ := List.mem_map.mp hx
      obtain ⟨b, hb, rfl⟩ := List.mem_map.mp hy
      rw [hfst a, hfst b]
      by_cases hak : (a.1 == k) = true <;> by_cases hbk : (b.1 == k) = true
      · rw [beq_iff_eq.mp hak, beq_iff_eq.mp hbk]
      · rw [if_pos hak, if_neg hbk] at hxy
        exact absurd hxy.symm (hfresh b hb (by simpa using hbk))
      · rw [if_neg hak, if_pos hbk] at hxy
        exact absurd hxy (hfresh a ha (by simpa using hak))
      · rw [if_neg hak, if_neg hbk] at hxy
        exact huid a ha b hb hxy
  · rw [if_neg hany]
    have hnotin : ∀ p ∈ d, p.1 ≠ k := by
      intro p hp hpk
      exact hany (List.any_eq_true.mpr ⟨p, hp, by simpa using hpk⟩)
    constructor
    · rw [List.map_append]
      rw [List.nodup_append]
      refine ⟨hkeys, by simp, ?_⟩
      intro x hx1 hx2
      obtain ⟨p, hp, hpx⟩ := List.mem_map.mp hx1
      have hxk : x = k := by simpa using hx2
      exact hnotin p hp (by rw [hpx, hxk])
    · intro a ha b hb hab
      rcases List.mem_append.mp ha with ha2 | ha2 <;>
        rcases List.mem_append.mp hb with hb2 | hb2
      · exact huid a ha2 b hb2 hab
      · have hbv : b = (k, v) := by simpa using hb2
        exact absurd (by rw [hbv] at hab; exact hab)
          (hfresh a ha2 (hnotin a ha2))
      · have hav : a = (k, v) := by simpa using ha2
        exact absurd (by rw [hav] at hab; exact hab.symm)
          (hfresh b hb2 (hnotin b hb2))
      · have hav : a = (k, v) := by simpa using ha2
        have hbv : b = (k, v) := by simpa using hb2
        rw [hav, hbv]

theorem mapTouch_WF (d : List (Nat × RemoteNode)) (nid now : Nat)
    (hkeys : (d.map Prod.fst).Nodup)
    (huid : ∀ a ∈ d, ∀ b ∈ d, a.2.unique_id = b.2.unique_id → a.1 = b.1) :
    (((d.map (fun p => if p.1 == nid then (p.1, { p.2 with last_seen := now })
        else p)).map Prod.fst).Nodup) ∧
    (∀ a ∈ d.map (fun p => if p.1 == nid then (p.1, { p.2 with last_seen := now })
        else p),
      ∀ b ∈ d.map (fun p => if p.1 == nid then (p.1, { p.2 with last_seen := now })
        else p),
      a.2.unique_id = b.2.unique_id → a.1 = b.1) := by
  have hfst : ∀ p : Nat × RemoteNode,
      ((if p.1 == nid then (p.1, { p.2 with last_seen := now }) else p) :
        Nat × RemoteNode).1 = p.1 := by
    intro p
    by_cases hp : (p.1 == nid) = true
    · rw [if_pos hp]
    · rw [if_neg hp]
  have huidf : ∀ p : Nat × RemoteNode,
      ((if p.1 == nid then (p.1, { p.2 with last_seen := now }) else p) :
        Nat × RemoteNode).2.unique_id = p.2.unique_id := by
    intro p
    by_cases hp : (p.1 == nid) = true
    · rw [if_pos hp]
    · rw [if_neg hp]
  constructor
  · rw [List.map_map]
    have hcomp : (Prod.fst ∘ fun p : Nat × RemoteNode =>
        if p.1 == nid then (p.1, { p.2 with last_seen := now }) else p)
        = Prod.fst := funext fun p => hfst p
    rw [hcomp]
    exact hkeys
  · intro x hx y hy hxy
    obtain ⟨a, ha, rfl⟩ := List.mem_map.mp hx
    obtain ⟨b, hb, rfl⟩ := List.mem_map.mp hy
    rw [hfst a, hfst b]
    rw [huidf a, huidf b] at hxy
    exact huid a ha b hb hxy

theorem handle_preserves_WF (st : Registry) (msg : NodeInfoMsg)
    (dn : Option String) (fw : Option String) (now : Nat) (cb : Bool)
    (hkeys : (st.discovered.map Prod.fst).Nodup)
    (huid : ∀ a ∈ st.discovered, ∀ b ∈ st.discovered,
      a.2.unique_id = b.2.unique_id → a.1 = b.1) :
    (((handle_node_info_response st msg dn fw now cb).discovered.map
        Prod.fst).Nodup) ∧
    (∀ a ∈ (handle_node_info_response st msg dn fw now cb).discovered,
      ∀ b ∈ (handle_node_info_response st msg dn fw now cb).discovered,
      a.2.unique_id = b.2.unique_id → a.1 = b.1) := by
  unfold handle_node_info_response
  cases dn with
  | none => exact ⟨hkeys, huid⟩
  | some dname =>
    cases hfind : st.discovered.find? (fun p => p.2.unique_id == msg.unique_id) with
    | some entry =>
      dsimp only
      have hmem : entry ∈ st.discovered := List.mem_of_find?_eq_some hfind
      by_cases hne : entry.1 = msg.source_node_id
      · rw [if_neg (not_not_intro hne)]
        dsimp only
        apply dictInsert_WF _ _ _ hkeys huid
        intro a ha hak hauid
        exact hak (huid a ha entry hmem hauid)
      · rw [if_pos hne]
        dsimp only
        obtain ⟨ek, eu⟩ := dictErase_WF st.discovered entry.1 hkeys huid
        apply dictInsert_WF _ _ _ ek eu
        intro a ha _ hauid
        have hain : a ∈ st.discovered := List.mem_of_mem_filter ha
        have hank : a.1 ≠ entry.1 := by
          have := List.of_mem_filter ha
          simpa using this
        exact hank (huid a hain entry hmem hauid)
    | none =>
      dsimp only
      have hnouid : ∀ a ∈ st.discovered, a.2.unique_id ≠ msg.unique_id := by
        intro a ha
        have := List.find?_eq_none.mp hfind a ha
        simpa using this
      by_cases hkey : (st.discovered.find? (fun p => p.1 == msg.source_node_id)).isNone
        = true
      · rw [if_pos hkey]
        by_cases hproc : st.processed.contains msg.source_node_id
        · rw [if_pos hproc]
          exact ⟨hkeys, huid⟩
        · rw [if_neg hproc]
          dsimp only
          apply dictInsert_WF _ _ _ hkeys huid
          intro a ha _ hauid
          exact hnouid a ha hauid
      · rw [if_neg hkey]
        dsimp only
        exact mapTouch_WF st.discovered msg.source_node_id now hkeys huid

theorem cleanup_preserves_WF (st : Registry) (now : Nat)
    (hkeys : (st.discovered.map Prod.fst).Nodup)
    (huid : ∀ a ∈ st.discovered, ∀ b ∈ st.discovered,
      a.2.unique_id = b.2.unique_id → a.1 = b.1) :
    (((cleanup_stale_nodes st now).discovered.map Prod.fst).Nodup) ∧
    (∀ a ∈ (cleanup_stale_nodes st now).discovered,
      ∀ b ∈ (cleanup_stale_nodes st now).discovered,
      a.2.unique_id = b.2.unique_id → a.1 = b.1) := by
  unfold cleanup_stale_nodes
  dsimp only
  constructor
  · exact hkeys.sublist (List.Sublist.map Prod.fst (List.filter_sublist _))
  · intro a ha b hb hab
    exact huid a (List.mem_of_mem_filter ha) b (List.mem_of_mem_filter hb) hab

theorem reachable_WF (port : String) (bus : Nat) (st : Registry)
    (h : Reachable port bus st) :
    (st.discovered.map Prod.fst).Nodup ∧
    ∀ a ∈ st.discovered, ∀ b ∈ st.discovered,
      a.2.unique_id = b.2.unique_id → a.1 = b.1 := by
  induction h with
  | init => exact ⟨List.nodup_nil, by simp [Registry.init]⟩
  | handle st msg dn fw now cb _ ih =>
    exact handle_preserves_WF st msg dn fw now cb ih.1 ih.2
  | cleanup st now _ ih =>
    exact cleanup_preserves_WF st now ih.1 ih.2

theorem mem_dictInsert (d : List (Nat × RemoteNode)) (k : Nat) (v : RemoteNode) :
    ∀ p ∈ dictInsert d k v, p.1 = k ∨ (p ∈ d ∧ p.1 ≠ k) := by
  unfold dictInsert
  by_cases hany : (d.any fun p => p.1 == k) = true
  · rw [if_pos hany]
    intro p hp
    obtain ⟨q, hq, hqp⟩ := List.mem_map.mp hp
    by_cases hqk : (q.1 == k) = true
    · rw [if_pos hqk] at hqp
      left
      rw [← hqp]
    · rw [if_neg hqk] at hqp
      right
      rw [← hqp]
      exact ⟨hq, by simpa using hqk⟩
  · rw [if_neg hany]
    intro p hp
    rcases List.mem_append.mp hp with hp2 | hp2
    · right
      refine ⟨hp2, fun hpk => ?_⟩
      exact hany (List.any_eq_true.mpr ⟨p, hp2, by simpa using hpk⟩)
    · left
      have : p = (k, v) := by simpa using hp2
      rw [this]

theorem handle_move_branch (st : Registry) (msg : NodeInfoMsg) (dname : String)
    (fwPath : Option String) (now : Nat) (cb : Bool) (entry : Nat × RemoteNode)
    (hfind : st.discovered.find? (fun p => p.2.unique_id == msg.unique_id)
      = some entry)
    (hne : entry.1 ≠ msg.source_node_id) :
    dictGet (handle_node_info_response st msg (some dname) fwPath now cb).discovered
        entry.1 = none ∧
    dictGet (handle_node_info_response st msg (some dname) fwPath now cb).discovered
        msg.source_node_id
      = some { entry.2 with node_id := msg.source_node_id, last_seen := now } := by
  have hred : (handle_node_info_response st msg (some dname) fwPath now cb).discovered
      = dictInsert (dictErase st.discovered entry.1) msg.source_node_id
          { entry.2 with node_id := msg.source_node_id, last_seen := now } := by
    unfold handle_node_info_response
    simp only [hfind]
    rw [if_pos hne]
  rw [hred]
  constructor
  · apply dictGet_eq_none
    intro p hp
    rcases mem_dictInsert _ _ _ p hp with hpk | ⟨hpe, _⟩
    · rw [hpk]
      exact fun hcon => hne hcon.symm
    · have := List.of_mem_filter hpe
      simpa using this
  · exact dictGet_insert_self _ _ _

/-- C5: at every reachable state of a transport's peer registry there is at
most one discovered-node record per unique_id; and when a GetNodeInfo reply
carries an already-known unique_id under a different node_id, the handler
removes the old node_id entry and re-inserts the very same record under the
new node_id with `firmware_path` and `needs_update` unchanged. -/
theorem registry_unique_id (port : String) (bus : Nat) :
    (∀ st : Registry, Reachable port bus st →
        ∀ a ∈ st.discovered, ∀ b ∈ st.discovered,
          a.2.unique_id = b.2.unique_id → a = b) ∧
    (∀ (st : Registry) (msg : NodeInfoMsg) (dname : String)
        (fwPath : Option String) (now : Nat) (cb : Bool) (entry : Nat × RemoteNode),
        st.discovered.find? (fun p => p.2.unique_id == msg.unique_id) = some entry →
        entry.1 ≠ msg.source_node_id →
        dictGet (handle_node_info_response st msg (some dname) fwPath now
            cb).discovered entry.1 = none ∧
        dictGet (handle_node_info_response st msg (some dname) fwPath now
            cb).discovered msg.source_node_id
          = some { entry.2 with node_id := msg.source_node_id, last_seen := now } ∧
        ({ entry.2 with node_id := msg.source_node_id, last_seen := now } :
            RemoteNode).firmware_path = entry.2.firmware_path ∧
        ({ entry.2 with node_id := msg.source_node_id, last_seen := now } :
            RemoteNode).needs_update = entry.2.needs_update) := by
  constructor
  · intro st hst a ha b hb hab
    obtain ⟨hk, hu⟩ := reachable_WF port bus st hst
    exact eq_of_mem_keyNodup st.discovered hk a ha b hb (hu a ha b hb hab)
  · intro st msg dname fwPath now cb entry hfind hne
    obtain ⟨h1, h2⟩ := handle_move_branch st msg dname fwPath now cb entry hfind hne
    exact ⟨h1, h2, rfl, rfl⟩

/-- A concrete GetNodeInfo reply from node 25. -/
def msgA : NodeInfoMsg := ⟨25, [1, 2, 3], 1, 8, 0, 1, 0⟩

/-- The same peer replying later from node 26 (same unique_id). -/
def msgB : NodeInfoMsg := ⟨26, [1, 2, 3], 1, 8, 0, 1, 0⟩

/-- The record created for `msgA`. -/
def rA : RemoteNode :=
  ⟨25, "com.cubepilot.here4", "port", 2, "1.8", "1.0", [1, 2, 3],
    some ("fw/here4.bin"), true, 100⟩

/-- The registry after discovering the peer at node 25. -/
def stA : Registry :=
  handle_node_info_response (Registry.init ("port") 2) msgA
    (some ("com.cubepilot.here4")) (some ("fw/here4.bin")) 100 true

/-- C5 witness: a concrete reachable registry holding one record, whose
unique_id moves from node 25 to node 26 while `firmware_path` and
`needs_update` are preserved. -/
theorem registry_unique_id_witness :
    ((25, rA) : Nat × RemoteNode) = (25, rA) ∧
    (dictGet (handle_node_info_response stA msgB (some ("com.cubepilot.here4"))
        (some ("fw/here4.bin")) 200 true).discovered 25 = none ∧
      dictGet (handle_node_info_response stA msgB (some ("com.cubepilot.here4"))
        (some ("fw/here4.bin")) 200 true).discovered 26
        = some { rA with node_id := 26, last_seen := 200 } ∧
      ({ rA with node_id := 26, last_seen := 200 } : RemoteNode).firmware_path
        = rA.firmware_path ∧
      ({ rA with node_id := 26, last_seen := 200 } : RemoteNode).needs_update
        = rA.needs_update) :=
  ⟨(registry_unique_id ("port") 2).1 stA
      (Reachable.handle _ msgA (some ("com.cubepilot.here4")) (some ("fw/here4.bin"))
        100 true (Reachable.init))
      (25, rA) (by decide) (25, rA) (by decide) rfl,
    (registry_unique_id ("port") 2).2 stA msgB ("com.cubepilot.here4")
      (some ("fw/here4.bin")) 200 true (25, rA) (by decide) (by decide)⟩

end DroneCANBatch
